import Mathlib

/-!
Verification development for the service-worker caching core.

Shallow embedding of the TypeScript sources:
  * `src/src/manifest.ts` — the `LruList` doubly-linked LRU list (second copy,
    lines 321-470, cited by the claims) and the cached-hit phase of
    `DataGroup.handleFetch` (lines 517-558).
  * `src/src/driver.ts` — `Driver.assignVersion`, `Driver.handleFetch`,
    `Driver.versionFailed`, `Driver.setupUpdate`, `Driver.checkForUpdate`,
    `Driver.sync`.
  * `src/src/assets.ts` — `AssetGroup.fetchFromNetwork`, `AssetGroup.cacheBust`,
    `AssetGroup.fetchAndCacheOnce`.
  * `src/unnamed/part_004` — `IdleScheduler.execute`.

JS objects holding nodes are modelled by value: the LRU `map` object is an
association list with unique keys kept in insertion order (matching the JS
object key order used by the source), and every field mutation of a node is a
functional update of the entry in that list, performed in exactly the statement
order of the source.  JS numbers used as counters/timestamps are modelled as
`Int`.  Fallible calls (`table.read`, `fetch`, awaited promises) are oracles
passed in as `Option`/`Except` arguments; thrown exceptions are `Except.error`.
-/

/-! ## LruList (src/src/manifest.ts, lines 304-470) -/

/-- LruNode from manifest.ts: `url`, `previous`, `next` (string or null). -/
structure LruNode where
  url : String
  previous : Option String
  next : Option String
deriving Repr, DecidableEq, Inhabited

/-- LruState from manifest.ts: `head`, `tail`, `map`, `count`.
The JS object `map` is an association list in key insertion order. -/
structure LruState where
  head : Option String
  tail : Option String
  map : List (String × LruNode)
  count : Int
deriving Repr, DecidableEq, Inhabited

/-- Lookup `map[k]` in the JS object (undefined becomes none). -/
def mapGet (m : List (String × LruNode)) (k : String) : Option LruNode :=
  match m with
  | [] => none
  | (k0, v0) :: rest => if k0 = k then some v0 else mapGet rest k

/-- JS object assignment `map[k] = v`: replace in place, else append. -/
def mapSet (m : List (String × LruNode)) (k : String) (v : LruNode) :
    List (String × LruNode) :=
  match m with
  | [] => [(k, v)]
  | (k0, v0) :: rest => if k0 = k then (k, v) :: rest else (k0, v0) :: mapSet rest k v

/-- JS `delete map[k]`. -/
def mapDelete (m : List (String × LruNode)) (k : String) :
    List (String × LruNode) :=
  match m with
  | [] => []
  | (k0, v0) :: rest => if k0 = k then rest else (k0, v0) :: mapDelete rest k

/-- The fresh state built by the `LruList` constructor when no state is given. -/
def emptyLru : LruState :=
  { head := none, tail := none, map := [], count := 0 }

/-- LruList.pop (manifest.ts lines 342-371): remove the tail. -/
def LruList.pop (s : LruState) : Option String × LruState :=
  match s.tail with
  | none => (none, s)
  | some url =>
    let s1 :=
      if s.head = s.tail then
        { s with head := none, tail := none }
      else
        let block := (mapGet s.map url).get!
        let prevKey := block.previous.get!
        let previous := (mapGet s.map prevKey).get!
        { s with tail := some previous.url,
                 map := mapSet s.map prevKey { previous with next := block.next } }
    (some url, { s1 with map := mapDelete s1.map url, count := s1.count - 1 })

/-- LruList.remove (manifest.ts lines 373-421).  Returns whether the URL was
present.  Note the source deletes the `map` entry only in the single-node
branch; the other branches decrement `count` and leave the entry in `map`. -/
def LruList.remove (s : LruState) (url : String) : Bool × LruState :=
  match mapGet s.map url with
  | none => (false, s)
  | some node =>
    if s.head = some url then
      match node.next with
      | none =>
        (true, { head := none, tail := none, map := [], count := 0 })
      | some nxt =>
        let next := (mapGet s.map nxt).get!
        let m1 := mapSet s.map nxt { next with previous := none }
        (true, { s with map := m1, head := some next.url, count := s.count - 1 })
    else
      let prevKey := node.previous.get!
      let previous := (mapGet s.map prevKey).get!
      let m1 := mapSet s.map prevKey { previous with next := node.next }
      match node.next with
      | some nxt =>
        let next := (mapGet m1 nxt).get!
        let m2 := mapSet m1 nxt { next with previous := node.previous }
        (true, { s with map := m2, count := s.count - 1 })
      | none =>
        (true, { s with map := m1, tail := node.previous, count := s.count - 1 })

/-- LruList.accessed (manifest.ts lines 423-470): move `url` to the head,
inserting if new; a no-op when `url` is already the head. -/
def LruList.accessed (s : LruState) (url : String) : LruState :=
  if s.head = some url then s
  else
    let node := (mapGet s.map url).getD { url := url, previous := none, next := none }
    let s1 := if (mapGet s.map url).isSome then (LruList.remove s url).2 else s
    let s2 :=
      match s1.head with
      | some h =>
        let hd := (mapGet s1.map h).get!
        { s1 with map := mapSet s1.map h { hd with previous := some url } }
      | none => s1
    let node2 := { node with next := s2.head }
    let s3 := { s2 with head := some url }
    let s4 := if s3.tail = none then { s3 with tail := some url } else s3
    { s4 with map := mapSet s4.map url node2, count := s4.count + 1 }

/-- An operation on the LRU list, as named by claim C2. -/
inductive LruOp where
  | accessed (url : String)
  | pop
  | remove (url : String)
deriving Repr, DecidableEq

/-- Run a sequence of LruList operations on a state. -/
def runLruOps (ops : List LruOp) (s : LruState) : LruState :=
  match ops with
  | [] => s
  | op :: rest =>
    let s' :=
      match op with
      | .accessed url => LruList.accessed s url
      | .pop => (LruList.pop s).2
      | .remove url => (LruList.remove s url).2
    runLruOps rest s'

/-- Claim C2 fails on the code: after `accessed "a"; accessed "b"; remove "a"`
from the empty list, `count` is 1 but `map` still holds 2 keys, because
`LruList.remove` decrements `count` without deleting the map entry outside the
single-node branch.  The claimed invariant `count = |map|` fails here. -/
theorem lruRemoveLeaksC2 :
    (runLruOps [LruOp.accessed "a", LruOp.accessed "b", LruOp.remove "a"] emptyLru).count = 1 ∧
    (runLruOps [LruOp.accessed "a", LruOp.accessed "b", LruOp.remove "a"] emptyLru).map.length = 2 := by
  constructor <;> rfl

/-! ## DataGroup cached-hit phase (src/src/manifest.ts, lines 517-558)

For a GET/HEAD request whose URL has a cached response, the source reads the
age table, compares `adapter.time - storedAge` against `config.maxAge`, and
either serves the cached response after `lru.accessed(url)`, or (stale, or any
read error) removes the URL from the LRU, clears its cache entries, persists
the LRU, and falls through to the network as a miss. -/

/-- Outcome of the cached-hit phase of DataGroup.handleFetch.  `served` is true
when the cached response is returned; otherwise control falls through as a
cache miss.  `clearedCache` records the `clearCacheForUrl` call and `synced`
the `syncLru` call. -/
structure HitOutcome where
  served : Bool
  lru : LruState
  clearedCache : Bool
  synced : Bool
deriving Repr, DecidableEq

/-- DataGroup.handleFetch, GET/HEAD branch with a cache hit (manifest.ts lines
534-558).  `now` is `adapter.time`; `ageRead` is the result of
`ageTable.read(req.url)` (`none` when the read throws). -/
def DataGroup.handleCacheHit (now maxAge : Int) (ageRead : Option Int)
    (lru : LruState) (url : String) : HitOutcome :=
  match ageRead with
  | some stored =>
    let age := now - stored
    if age ≤ maxAge then
      { served := true, lru := LruList.accessed lru url,
        clearedCache := false, synced := false }
    else
      { served := false, lru := (LruList.remove lru url).2,
        clearedCache := true, synced := true }
  | none =>
    { served := false, lru := (LruList.remove lru url).2,
      clearedCache := true, synced := true }

/-- Claim C4: on a data-group GET/HEAD cache hit, a fresh entry
(`now - age ≤ maxAge`) is recorded via `accessed` and served from cache; a
stale entry or a failed age-table read removes the URL from LRU and cache and
syncs the LRU before falling through as a miss; elapsed age exactly `maxAge`
is served from cache and `maxAge + 1` is not. -/
theorem dataGroupFreshnessC4 (now maxAge stored : Int) (lru : LruState) (url : String) :
    (now - stored ≤ maxAge →
      DataGroup.handleCacheHit now maxAge (some stored) lru url =
        { served := true, lru := LruList.accessed lru url,
          clearedCache := false, synced := false }) ∧
    (maxAge < now - stored →
      DataGroup.handleCacheHit now maxAge (some stored) lru url =
        { served := false, lru := (LruList.remove lru url).2,
          clearedCache := true, synced := true }) ∧
    (DataGroup.handleCacheHit now maxAge none lru url =
        { served := false, lru := (LruList.remove lru url).2,
          clearedCache := true, synced := true }) ∧
    ((DataGroup.handleCacheHit now maxAge (some (now - maxAge)) lru url).served = true) ∧
    ((DataGroup.handleCacheHit now maxAge (some (now - (maxAge + 1))) lru url).served = false) := by
  refine ⟨fun h => ?_, fun h => ?_, rfl, ?_, ?_⟩
  · simp only [DataGroup.handleCacheHit]
    rw [if_pos h]
  · simp only [DataGroup.handleCacheHit]
    rw [if_neg (by omega)]
  · simp only [DataGroup.handleCacheHit]
    rw [if_pos (by omega)]
  · simp only [DataGroup.handleCacheHit]
    rw [if_neg (by omega)]

/-- Witness for claim C4 at a concrete input: age 4 read at time 10 with
maxAge 6 is fresh and served from the cache. -/
theorem dataGroupFreshnessC4Witness :
    ((10 : Int) - 4 ≤ 6) ∧
    DataGroup.handleCacheHit 10 6 (some 4) emptyLru "/api/a" =
      { served := true, lru := LruList.accessed emptyLru "/api/a",
        clearedCache := false, synced := false } :=
  ⟨by decide, (dataGroupFreshnessC4 10 6 4 emptyLru "/api/a").1 (by decide)⟩

/-! ## Driver (src/src/driver.ts)

The driver's mutable fields are `state`, `clientVersionMap` (a JS `Map`,
modelled as an association list in insertion order with unique keys),
`versions` (a JS `Map` whose `AppVersion` values are identified by their
manifest hash, so it is modelled as the list of installed hashes in insertion
order), and `latestHash`.  Database writes performed or scheduled by a method
are returned as an explicit trace, so frame claims about persistence can be
stated; `Driver.assignVersion` and `Driver.sync` perform none in the source. -/

/-- DriverReadyState from driver.ts lines 16-27. -/
inductive DriverReadyState where
  | NORMAL
  | EXISTING_CLIENTS_ONLY
  | SAFE_MODE
deriving Repr, DecidableEq

/-- A database write performed or scheduled by a driver method. -/
structure DbWrite where
  table : String
  key : String
  value : String
deriving Repr, DecidableEq

/-- The driver's in-memory state (driver.ts lines 34-60). -/
structure DriverState where
  state : DriverReadyState
  clientVersionMap : List (String × String)
  versions : List String
  latestHash : Option String
deriving Repr, DecidableEq

/-- JS `Map.get` on the client-version map. -/
def cvmGet (m : List (String × String)) (c : String) : Option String :=
  match m with
  | [] => none
  | (c0, h0) :: rest => if c0 = c then some h0 else cvmGet rest c

/-- JS `Map.set` on the client-version map: update in place, else append. -/
def cvmSet (m : List (String × String)) (c h : String) : List (String × String) :=
  match m with
  | [] => [(c, h)]
  | (c0, h0) :: rest => if c0 = c then (c, h) :: rest else (c0, h0) :: cvmSet rest c h

/-- Driver.lookupVersionByHash (driver.ts lines 220-226): throws when the hash
has no loaded version, otherwise returns the version (identified by hash). -/
def Driver.lookupVersionByHash (d : DriverState) (hash : String) : Except Unit String :=
  if d.versions.contains hash then .ok hash else .error ()

/-- Driver.assignVersion (driver.ts lines 231-297).  Returns the thrown-or-value
result, the driver state after the call, and the trace of database writes the
call performed or scheduled — the source performs none (the sync after pinning
is a `TODO` comment). -/
def Driver.assignVersion (d : DriverState) (clientId : Option String) :
    (Except Unit (Option String)) × DriverState × List DbWrite :=
  match clientId with
  | some c =>
    match cvmGet d.clientVersionMap c with
    | some hash =>
      match Driver.lookupVersionByHash d hash with
      | .ok v => (.ok (some v), d, [])
      | .error e => (.error e, d, [])
    | none =>
      if d.state ≠ DriverReadyState.NORMAL then (.ok none, d, [])
      else
        match d.latestHash with
        | none => (.error (), d, [])
        | some latest =>
          let d' := { d with clientVersionMap := cvmSet d.clientVersionMap c latest }
          match Driver.lookupVersionByHash d' latest with
          | .ok v => (.ok (some v), d', [])
          | .error e => (.error e, d', [])
  | none =>
    if d.state ≠ DriverReadyState.NORMAL then (.ok none, d, [])
    else
      match d.latestHash with
      | none => (.error (), d, [])
      | some latest =>
        match Driver.lookupVersionByHash d latest with
        | .ok v => (.ok (some v), d, [])
        | .error e => (.error e, d, [])

/-- Claim C1 counterexample: in NORMAL state, pinning a previously unseen
client mutates only the in-memory client-version map; the trace of performed
or scheduled persistence writes is empty (driver.ts line 274 is
`// TODO: sync to DB.`), so no persistence write is scheduled. -/
theorem assignVersionNoWriteC1 :
    (Driver.assignVersion
        { state := DriverReadyState.NORMAL, clientVersionMap := [],
          versions := ["h1"], latestHash := some "h1" } (some "c1")) =
      (.ok (some "h1"),
       { state := DriverReadyState.NORMAL, clientVersionMap := [("c1", "h1")],
         versions := ["h1"], latestHash := some "h1" },
       ([] : List DbWrite)) := by
  rfl

/-- Claim C1 (amended): assignVersion implements the claimed case analysis,
except that pinning a fresh client in NORMAL state schedules no persistence
write (the pin is in-memory only).  Hypotheses `hlat`/`hlatv` state the
initialized-driver invariants that `latestHash` is set and loaded. -/
theorem assignVersionCasesC1 (d : DriverState) (c pinned latest : String)
    (hlat : d.latestHash = some latest) (hlatv : d.versions.contains latest = true) :
    (cvmGet d.clientVersionMap c = some pinned → d.versions.contains pinned = true →
      Driver.assignVersion d (some c) = (.ok (some pinned), d, [])) ∧
    (cvmGet d.clientVersionMap c = none → d.state = DriverReadyState.NORMAL →
      Driver.assignVersion d (some c) =
        (.ok (some latest),
         { d with clientVersionMap := cvmSet d.clientVersionMap c latest }, [])) ∧
    (cvmGet d.clientVersionMap c = none → d.state ≠ DriverReadyState.NORMAL →
      Driver.assignVersion d (some c) = (.ok none, d, [])) ∧
    (d.state = DriverReadyState.NORMAL →
      Driver.assignVersion d none = (.ok (some latest), d, [])) ∧
    (d.state ≠ DriverReadyState.NORMAL →
      Driver.assignVersion d none = (.ok none, d, [])) := by
  refine ⟨fun hc hp => ?_, fun hc hn => ?_, fun hc hn => ?_, fun hn => ?_, fun hn => ?_⟩
  · simp only [Driver.assignVersion, hc, Driver.lookupVersionByHash]
    rw [if_pos hp]
  · simp only [Driver.assignVersion, hc, hn, hlat, Driver.lookupVersionByHash]
    simp only [ne_eq, not_true_eq_false, if_false]
    rw [if_pos hlatv]
  · simp [Driver.assignVersion, hc, hn]
  · simp only [Driver.assignVersion, hn, hlat, Driver.lookupVersionByHash]
    simp only [ne_eq, not_true_eq_false, if_false]
    rw [if_pos hlatv]
  · simp [Driver.assignVersion, hn]

/-- Witness for claim C1 (amended) at concrete inputs: a pinned client is
served its pinned version; a fresh client in NORMAL is pinned to latest with
no persistence write. -/
theorem assignVersionCasesC1Witness :
    (({ state := DriverReadyState.NORMAL, clientVersionMap := [("c0", "h0")],
        versions := ["h0", "h1"], latestHash := some "h1" } : DriverState).latestHash
        = some "h1") ∧
    Driver.assignVersion
        { state := DriverReadyState.NORMAL, clientVersionMap := [("c0", "h0")],
          versions := ["h0", "h1"], latestHash := some "h1" } (some "c0") =
      (.ok (some "h0"),
       { state := DriverReadyState.NORMAL, clientVersionMap := [("c0", "h0")],
         versions := ["h0", "h1"], latestHash := some "h1" }, []) ∧
    Driver.assignVersion
        { state := DriverReadyState.NORMAL, clientVersionMap := [("c0", "h0")],
          versions := ["h0", "h1"], latestHash := some "h1" } (some "c2") =
      (.ok (some "h1"),
       { state := DriverReadyState.NORMAL,
         clientVersionMap := [("c0", "h0"), ("c2", "h1")],
         versions := ["h0", "h1"], latestHash := some "h1" }, []) :=
  ⟨rfl,
   (assignVersionCasesC1
      { state := DriverReadyState.NORMAL, clientVersionMap := [("c0", "h0")],
        versions := ["h0", "h1"], latestHash := some "h1" }
      "c0" "h0" "h1" rfl (by decide)).1 rfl (by decide),
   (assignVersionCasesC1
      { state := DriverReadyState.NORMAL, clientVersionMap := [("c0", "h0")],
        versions := ["h0", "h1"], latestHash := some "h1" }
      "c2" "h0" "h1" rfl (by decide)).2.1 rfl rfl⟩

/-! ## Driver.handleFetch (src/src/driver.ts, lines 81-122)

`initResult` is the outcome of `await this.initialized`; `versionFetch h` is
the outcome of `appVersion.handleFetch(event.request, event)` on the version
with hash `h` (`.error` when it throws or its promise rejects, `.ok none` when
it returns null).  The code's try/catch wraps only the awaited init; the
subsequent calls are unguarded, so their exceptions reject the promise passed
to `event.respondWith`. -/

/-- What Driver.handleFetch resolves to: `network` for `scope.fetch(request)`
fall-through, or the response produced by the chosen version. -/
inductive FetchOutcome where
  | network
  | fromVersion (hash : String) (resp : Nat)
deriving Repr, DecidableEq

/-- Driver.handleFetch (driver.ts lines 81-122), given the awaited init outcome
and the chosen version's fetch outcome.  Returns the settled promise value
(`.error` = the promise handed to respondWith rejects) and the driver state
after the call. -/
def Driver.handleFetch (d : DriverState) (clientId : Option String)
    (initResult : Except Unit Unit)
    (versionFetch : String → Except Unit (Option Nat)) :
    (Except Unit FetchOutcome) × DriverState :=
  match initResult with
  | .error _ => (.ok .network, { d with state := DriverReadyState.SAFE_MODE })
  | .ok _ =>
    match Driver.assignVersion d clientId with
    | (.error e, d', _) => (.error e, d')
    | (.ok none, d', _) => (.ok .network, d')
    | (.ok (some h), d', _) =>
      match versionFetch h with
      | .error e => (.error e, d')
      | .ok none => (.ok .network, d')
      | .ok (some r) => (.ok (.fromVersion h r), d')

/-- Claim C3 fails on the code: with the driver initialized and NORMAL, a
client pinned to version "h1", and an AppVersion.handleFetch that throws, the
driver's handleFetch rejects (the error escapes through respondWith) and the
state stays NORMAL — it is not set to SAFE_MODE and the request is not
forwarded to the network, contradicting the claim (and the comment at
driver.ts lines 76-78). -/
theorem handleFetchRejectsC3 :
    Driver.handleFetch
        { state := DriverReadyState.NORMAL, clientVersionMap := [("c1", "h1")],
          versions := ["h1"], latestHash := some "h1" }
        (some "c1") (.ok ()) (fun _ => .error ()) =
      (.error (),
       { state := DriverReadyState.NORMAL, clientVersionMap := [("c1", "h1")],
         versions := ["h1"], latestHash := some "h1" }) := by
  rfl

/-! ## Driver.versionFailed (src/src/driver.ts, lines 328-361)

The broken `AppVersion` is identified by its manifest hash (the source scans
`versions.entries()` for the instance; hashes identify instances one-to-one).
If the hash is no longer in `versions`, nothing happens.  If it is the latest,
the state drops to EXISTING_CLIENTS_ONLY and every client binding is deleted;
otherwise every client pinned to the broken hash is re-pinned to
`latestHash!`. -/

/-- Driver.versionFailed (driver.ts lines 328-361). -/
def Driver.versionFailed (d : DriverState) (brokenHash : String) : DriverState :=
  if ¬ d.versions.contains brokenHash then d
  else if d.latestHash = some brokenHash then
    { d with state := DriverReadyState.EXISTING_CLIENTS_ONLY, clientVersionMap := [] }
  else
    let newMap := d.clientVersionMap.map fun p =>
      if p.2 = brokenHash then (p.1, d.latestHash.get!) else p
    { d with clientVersionMap := newMap }

/-- Claim C6: when an installed version with hash `broken` fails: if it is the
latest, the state becomes EXISTING_CLIENTS_ONLY and the client-version map is
cleared; otherwise the state stays NORMAL and exactly the clients pinned to
`broken` are re-pinned to the latest hash `l`, all other assignments, the
versions map and the latest hash unchanged. -/
theorem versionFailedC6 (d : DriverState) (broken l : String)
    (hmem : d.versions.contains broken = true)
    (hl : d.latestHash = some l)
    (hst : d.state = DriverReadyState.NORMAL) :
    (l = broken →
      Driver.versionFailed d broken =
        { d with state := DriverReadyState.EXISTING_CLIENTS_ONLY,
                 clientVersionMap := [] }) ∧
    (l ≠ broken →
      (Driver.versionFailed d broken).state = DriverReadyState.NORMAL ∧
      (Driver.versionFailed d broken).clientVersionMap =
        d.clientVersionMap.map (fun p => if p.2 = broken then (p.1, l) else p) ∧
      (Driver.versionFailed d broken).versions = d.versions ∧
      (Driver.versionFailed d broken).latestHash = d.latestHash) := by
  have hcond : ¬ (¬ d.versions.contains broken = true) := fun h => h hmem
  constructor
  · intro hb
    subst hb
    simp only [Driver.versionFailed]
    rw [if_neg hcond, if_pos hl]
  · intro hb
    have hne : ¬ d.latestHash = some broken := by
      rw [hl]
      intro h
      exact hb (Option.some.inj h)
    simp only [Driver.versionFailed]
    rw [if_neg hcond, if_neg hne]
    refine ⟨hst, ?_, rfl, rfl⟩
    simp only [hl]
    rfl

/-- Witness for claim C6 at concrete inputs: failing the non-latest version
"h0" re-pins exactly client "c0" from "h0" to "h1". -/
theorem versionFailedC6Witness :
    ("h1" : String) ≠ "h0" ∧
    (Driver.versionFailed
        { state := DriverReadyState.NORMAL,
          clientVersionMap := [("c0", "h0"), ("c1", "h1")],
          versions := ["h0", "h1"], latestHash := some "h1" } "h0").clientVersionMap =
      [("c0", "h1"), ("c1", "h1")] := by
  constructor
  · decide
  · have h := (versionFailedC6
      { state := DriverReadyState.NORMAL,
        clientVersionMap := [("c0", "h0"), ("c1", "h1")],
        versions := ["h0", "h1"], latestHash := some "h1" }
      "h0" "h1" (by decide) rfl rfl).2 (by decide)
    rw [h.2.1]
    rfl

/-! ## Driver update check (src/src/driver.ts, lines 363-404)

`setupUpdate` constructs the candidate version, awaits
`newVersion.initializeFully(this)` — a failure there propagates before any
driver field is mutated — and only then installs the hash into `versions`,
calls `this.sync()` (whose body is empty, so it performs no writes), and sets
`latestHash`.  `checkForUpdate` returns false without calling `setupUpdate`
when the fetched manifest's hash is already installed.  `initOk` is the
outcome of the candidate's full initialization. -/

/-- JS `Map.set` on `versions`, keyed by manifest hash: key set gains `h`
only if absent; insertion order preserved. -/
def versionsSet (vs : List String) (h : String) : List String :=
  if vs.contains h then vs else vs ++ [h]

/-- Driver.sync (driver.ts lines 402-404): the body is empty, so the list of
database writes it performs is empty. -/
def Driver.syncWrites : List DbWrite := []

/-- Driver.setupUpdate (driver.ts lines 363-387): returns the thrown-or-unit
result, the driver state after the call, and the database writes performed. -/
def Driver.setupUpdate (d : DriverState) (hash : String) (initOk : Bool) :
    (Except Unit Unit) × DriverState × List DbWrite :=
  if initOk then
    (.ok (),
     { d with versions := versionsSet d.versions hash, latestHash := some hash },
     Driver.syncWrites)
  else
    (.error (), d, [])

/-- Driver.checkForUpdate (driver.ts lines 389-400), given the hash of the
freshly fetched manifest. -/
def Driver.checkForUpdate (d : DriverState) (fetchedHash : String) (initOk : Bool) :
    (Except Unit Bool) × DriverState × List DbWrite :=
  if d.versions.contains fetchedHash then (.ok false, d, [])
  else
    match Driver.setupUpdate d fetchedHash initOk with
    | (.ok _, d', w) => (.ok true, d', w)
    | (.error e, d', w) => (.error e, d', w)

/-- Claim C5: checkForUpdate on an already-known hash returns false with the
driver state untouched; and when the candidate version's full initialization
throws, the error propagates and versions, latestHash and the client-version
map are exactly as before. -/
theorem checkForUpdateC5 (d : DriverState) (h : String) :
    (∀ initOk, d.versions.contains h = true →
      Driver.checkForUpdate d h initOk = (.ok false, d, [])) ∧
    (d.versions.contains h = false →
      Driver.checkForUpdate d h false = (.error (), d, []) ∧
      (Driver.checkForUpdate d h false).2.1.versions = d.versions ∧
      (Driver.checkForUpdate d h false).2.1.latestHash = d.latestHash ∧
      (Driver.checkForUpdate d h false).2.1.clientVersionMap = d.clientVersionMap) := by
  constructor
  · intro initOk hknown
    simp only [Driver.checkForUpdate]
    rw [if_pos hknown]
  · intro hnew
    have hcond : ¬ d.versions.contains h = true := by
      rw [hnew]
      exact Bool.false_ne_true
    simp only [Driver.checkForUpdate, Driver.setupUpdate]
    rw [if_neg hcond]
    exact ⟨rfl, rfl, rfl, rfl⟩

/-- Witness for claim C5 at concrete inputs: a known hash yields false and no
state change; a failed candidate initialization propagates with state intact. -/
theorem checkForUpdateC5Witness :
    (["h1"] : List String).contains "h1" = true ∧
    Driver.checkForUpdate
        { state := DriverReadyState.NORMAL, clientVersionMap := [],
          versions := ["h1"], latestHash := some "h1" } "h1" true =
      (.ok false,
       { state := DriverReadyState.NORMAL, clientVersionMap := [],
         versions := ["h1"], latestHash := some "h1" }, []) ∧
    Driver.checkForUpdate
        { state := DriverReadyState.NORMAL, clientVersionMap := [],
          versions := ["h1"], latestHash := some "h1" } "h2" false =
      (.error (),
       { state := DriverReadyState.NORMAL, clientVersionMap := [],
         versions := ["h1"], latestHash := some "h1" }, []) :=
  ⟨by decide,
   (checkForUpdateC5
      { state := DriverReadyState.NORMAL, clientVersionMap := [],
        versions := ["h1"], latestHash := some "h1" } "h1").1 true (by decide),
   ((checkForUpdateC5
      { state := DriverReadyState.NORMAL, clientVersionMap := [],
        versions := ["h1"], latestHash := some "h1" } "h2").2 (by decide)).1⟩

/-- The persisted control table, as key/serialized-value pairs. -/
def ControlTable := List (String × String)

/-- Replay a trace of database writes onto the control table: only writes
addressed to the "control" table change it. -/
def applyControlWrites (ws : List DbWrite) (ctl : List (String × String)) :
    List (String × String) :=
  match ws with
  | [] => ctl
  | w :: rest =>
    let ctl' := if w.table = "control" then cvmSet ctl w.key w.value else ctl
    applyControlWrites rest ctl'

/-- Claim C10: a successful update (checkForUpdate returning true) performs no
database writes — `Driver.sync` is the only persistence step in `setupUpdate`
and its body is empty — so replaying the writes leaves any control table
unchanged, while the in-memory state did move to the new hash (it is installed
in `versions` and is the new `latestHash`, visible only in memory). -/
theorem updateLeavesControlUnchangedC10 (d : DriverState) (h : String)
    (ctl : List (String × String)) (hnew : d.versions.contains h = false) :
    (Driver.checkForUpdate d h true).1 = .ok true ∧
    (Driver.checkForUpdate d h true).2.2 = Driver.syncWrites ∧
    applyControlWrites (Driver.checkForUpdate d h true).2.2 ctl = ctl ∧
    (Driver.checkForUpdate d h true).2.1.latestHash = some h ∧
    (Driver.checkForUpdate d h true).2.1.versions.contains h = true := by
  have hcond : ¬ d.versions.contains h = true := by
    rw [hnew]
    exact Bool.false_ne_true
  have hrun : Driver.checkForUpdate d h true =
      (.ok true,
       { d with versions := versionsSet d.versions h, latestHash := some h },
       Driver.syncWrites) := by
    simp only [Driver.checkForUpdate, Driver.setupUpdate]
    rw [if_neg hcond]
    simp
  refine ⟨by rw [hrun], by rw [hrun], by rw [hrun]; rfl, by rw [hrun], ?_⟩
  rw [hrun]
  simp only [versionsSet]
  rw [if_neg hcond]
  simp

/-- Witness for claim C10 at a concrete input: updating from "h1" to "h2"
returns true and leaves a nonempty control table exactly as it was. -/
theorem updateLeavesControlUnchangedC10Witness :
    (["h1"] : List String).contains "h2" = false ∧
    applyControlWrites
      (Driver.checkForUpdate
        { state := DriverReadyState.NORMAL, clientVersionMap := [],
          versions := ["h1"], latestHash := some "h1" } "h2" true).2.2
      [("latest", "h1")] = [("latest", "h1")] :=
  ⟨by decide,
   (updateLeavesControlUnchangedC10
      { state := DriverReadyState.NORMAL, clientVersionMap := [],
        versions := ["h1"], latestHash := some "h1" } "h2"
      [("latest", "h1")] (by decide)).2.2.1⟩

/-! ## AssetGroup (src/src/assets.ts)

Responses are modelled by their `ok` flag and body text; `sha1` is the opaque
hashing primitive the source imports, passed in as a function.  The network is
an oracle: `first` is the response to the plain fetch of the URL and `busted`
the response to the cache-busted fetch (consumed only if that fetch is made).
Each function also returns the list of URLs actually fetched, in order. -/

/-- A network response as the asset code observes it. -/
structure Resp where
  ok : Bool
  body : String
deriving Repr, DecidableEq

/-- AssetGroup.cacheBust (assets.ts lines 362-364): append the literal
`ngsw-cache-bust` parameter, with a leading question mark when the URL has no
query string yet and an ampersand when it does.  `rand` stands for the
`Math.random()` value. -/
def AssetGroup.cacheBust (rand : String) (url : String) : String :=
  url ++ (if url.contains '?' then "&" else "?") ++ "ngsw-cache-bust=" ++ rand

/-- Errors AssetGroup.fetchFromNetwork can throw. -/
inductive FetchErr where
  | notOk
  | hashMismatch
deriving Repr, DecidableEq

/-- Lookup in the hashes map (the manifest hashTable flattened per group). -/
def hashesGet (hs : List (String × String)) (url : String) : Option String :=
  match hs with
  | [] => none
  | (u0, h0) :: rest => if u0 = url then some h0 else hashesGet rest url

/-- AssetGroup.fetchFromNetwork (assets.ts lines 267-337).  For a hashed URL:
plain fetch first; a cache-busted request is made iff that response is ok and
its body hash differs from the canonical hash (the source assigns
`makeCacheBustedRequest = networkResult.ok` and then conjoins the hash test);
a non-ok cache-busted response throws `notOk`, a second hash mismatch throws
`hashMismatch`, otherwise the cache-busted response is used.  An unhashed URL
is fetched directly. -/
def AssetGroup.fetchFromNetwork (sha1 : String → String)
    (hashes : List (String × String)) (url : String)
    (first busted : Resp) (rand : String) :
    (Except FetchErr Resp) × List String :=
  match hashesGet hashes url with
  | some canonicalHash =>
    let makeCacheBustedRequest := first.ok && (sha1 first.body != canonicalHash)
    if makeCacheBustedRequest then
      let bustedUrl := AssetGroup.cacheBust rand url
      if !busted.ok then (.error .notOk, [url, bustedUrl])
      else if canonicalHash != sha1 busted.body then
        (.error .hashMismatch, [url, bustedUrl])
      else (.ok busted, [url, bustedUrl])
    else (.ok first, [url])
  | none => (.ok first, [url])

/-- Claim C7: for a hash-pinned URL whose first (ok) response hashes to the
canonical hash, that response is used after a single request; on a mismatch
exactly one retry is issued at the cache-busted URL (question-mark separator
without an existing query string, ampersand with one); and when the ok
cache-busted body also mismatches, the hash-mismatch error is thrown. -/
theorem fetchFromNetworkC7 (sha1 : String → String)
    (hashes : List (String × String)) (url : String) (first busted : Resp)
    (rand canonicalHash : String)
    (hhash : hashesGet hashes url = some canonicalHash)
    (hok : first.ok = true) :
    (sha1 first.body = canonicalHash →
      AssetGroup.fetchFromNetwork sha1 hashes url first busted rand =
        (.ok first, [url])) ∧
    (sha1 first.body ≠ canonicalHash →
      (AssetGroup.fetchFromNetwork sha1 hashes url first busted rand).2 =
        [url, AssetGroup.cacheBust rand url] ∧
      (busted.ok = true → sha1 busted.body ≠ canonicalHash →
        (AssetGroup.fetchFromNetwork sha1 hashes url first busted rand).1 =
          .error FetchErr.hashMismatch)) ∧
    (url.contains '?' = false →
      AssetGroup.cacheBust rand url = url ++ "?" ++ "ngsw-cache-bust=" ++ rand) ∧
    (url.contains '?' = true →
      AssetGroup.cacheBust rand url = url ++ "&" ++ "ngsw-cache-bust=" ++ rand) := by
  refine ⟨fun hmatch => ?_, fun hmiss => ?_, fun hq => ?_, fun hq => ?_⟩
  · simp [AssetGroup.fetchFromNetwork, hhash, hmatch]
  · have hbust : (first.ok && (sha1 first.body != canonicalHash)) = true := by
      rw [hok]
      simpa using hmiss
    constructor
    · simp only [AssetGroup.fetchFromNetwork, hhash, hbust, if_true]
      by_cases hb : busted.ok
      · by_cases h2 : canonicalHash != sha1 busted.body <;> simp [hb, h2]
      · simp [hb]
    · intro hbok h2
      have h2' : (canonicalHash != sha1 busted.body) = true := by
        simpa using fun hcontra => h2 hcontra.symm
      simp [AssetGroup.fetchFromNetwork, hhash, hbust, hbok, h2']
  · simp [AssetGroup.cacheBust, hq]
  · simp [AssetGroup.cacheBust, hq]

/-- Witness for claim C7 at concrete inputs (sha1 modelled by the identity on
these bodies): a matching first response is used with one request; a
mismatching first response with an ok mismatching cache-busted response
reaches the hash-mismatch error after exactly the two requests. -/
theorem fetchFromNetworkC7Witness :
    (hashesGet [("/foo.txt", "H")] "/foo.txt" = some "H") ∧
    AssetGroup.fetchFromNetwork (fun s => s) [("/foo.txt", "H")] "/foo.txt"
        { ok := true, body := "H" } { ok := true, body := "X" } "r" =
      (.ok { ok := true, body := "H" }, ["/foo.txt"]) ∧
    (AssetGroup.fetchFromNetwork (fun s => s) [("/foo.txt", "H")] "/foo.txt"
        { ok := true, body := "Y" } { ok := true, body := "X" } "r").2 =
      ["/foo.txt", AssetGroup.cacheBust "r" "/foo.txt"] ∧
    (AssetGroup.fetchFromNetwork (fun s => s) [("/foo.txt", "H")] "/foo.txt"
        { ok := true, body := "Y" } { ok := true, body := "X" } "r").1 =
      .error FetchErr.hashMismatch := by
  refine ⟨rfl, ?_, ?_, ?_⟩
  · exact (fetchFromNetworkC7 (fun s => s) [("/foo.txt", "H")] "/foo.txt"
      { ok := true, body := "H" } { ok := true, body := "X" } "r" "H"
      rfl rfl).1 rfl
  · exact ((fetchFromNetworkC7 (fun s => s) [("/foo.txt", "H")] "/foo.txt"
      { ok := true, body := "Y" } { ok := true, body := "X" } "r" "H"
      rfl rfl).2.1 (by decide)).1
  · exact ((fetchFromNetworkC7 (fun s => s) [("/foo.txt", "H")] "/foo.txt"
      { ok := true, body := "Y" } { ok := true, body := "X" } "r" "H"
      rfl rfl).2.1 (by decide)).2 rfl (by decide)

/-! ## AssetGroup.fetchAndCacheOnce (src/src/assets.ts, lines 210-262)

The method has two phases separated by the first await.  The synchronous entry
phase checks `inFlightRequests`: if the URL is present it returns that pending
promise without starting a network fetch; otherwise it creates the
`fetchFromNetwork` promise, stores it in the table, and proceeds.  The
completion phase is the `finally` block, which deletes the table entry
whether the body finished normally or threw.  Promises are identified by
opaque ids. -/

/-- JS `Map.get` on the in-flight table (URL to promise id). -/
def flightGet (m : List (String × Nat)) (url : String) : Option Nat :=
  match m with
  | [] => none
  | (u0, p0) :: rest => if u0 = url then some p0 else flightGet rest url

/-- JS `Map.set` on the in-flight table. -/
def flightSet (m : List (String × Nat)) (url : String) (p : Nat) :
    List (String × Nat) :=
  match m with
  | [] => [(url, p)]
  | (u0, p0) :: rest =>
    if u0 = url then (url, p) :: rest else (u0, p0) :: flightSet rest url p

/-- JS `Map.delete` on the in-flight table. -/
def flightDelete (m : List (String × Nat)) (url : String) :
    List (String × Nat) :=
  match m with
  | [] => []
  | (u0, p0) :: rest =>
    if u0 = url then flightDelete rest url else (u0, p0) :: flightDelete rest url

/-- Entry phase of fetchAndCacheOnce: returns the promise joined, the in-flight
table afterwards, and whether a new network fetch was started.  `fresh` is the
id of the `fetchFromNetwork` promise that would be created. -/
def AssetGroup.fetchAndCacheOnceEnter (inFlight : List (String × Nat))
    (url : String) (fresh : Nat) : Nat × List (String × Nat) × Bool :=
  match flightGet inFlight url with
  | some p => (p, inFlight, false)
  | none => (fresh, flightSet inFlight url fresh, true)

/-- Completion phase of fetchAndCacheOnce (the `finally` block): the in-flight
entry is deleted regardless of the outcome of the awaited work. -/
def AssetGroup.fetchAndCacheOnceExit (inFlight : List (String × Nat))
    (url : String) (_outcome : Except Unit Resp) : List (String × Nat) :=
  flightDelete inFlight url

/-- After deleting a URL from the in-flight table, looking it up yields none. -/
theorem flightGet_delete (m : List (String × Nat)) (url : String) :
    flightGet (flightDelete m url) url = none := by
  induction m with
  | nil => rfl
  | cons hd tl ih =>
    obtain ⟨u0, p0⟩ := hd
    by_cases h : u0 = url
    · simp [flightDelete, h, ih]
    · simp [flightDelete, flightGet, h, ih]

/-- Claim C8: a second fetchAndCacheOnce for a URL whose first operation is
still in flight joins the first call's pending promise `p` and starts no
second network fetch, leaving the table unchanged; and the completion phase
removes the in-flight entry on both the success and the failure path. -/
theorem fetchAndCacheOnceC8 (inFlight : List (String × Nat)) (url : String)
    (p fresh : Nat) (hin : flightGet inFlight url = some p) :
    AssetGroup.fetchAndCacheOnceEnter inFlight url fresh = (p, inFlight, false) ∧
    (∀ outcome : Except Unit Resp,
      flightGet (AssetGroup.fetchAndCacheOnceExit inFlight url outcome) url = none) := by
  constructor
  · simp [AssetGroup.fetchAndCacheOnceEnter, hin]
  · intro o
    exact flightGet_delete inFlight url

/-- Witness for claim C8 at a concrete input: with `/foo.txt` already in
flight as promise 7, a second call joins promise 7 and starts no fetch, and
the completion phase empties the table on the success and failure outcomes. -/
theorem fetchAndCacheOnceC8Witness :
    flightGet [("/foo.txt", 7)] "/foo.txt" = some 7 ∧
    AssetGroup.fetchAndCacheOnceEnter [("/foo.txt", 7)] "/foo.txt" 9 =
      (7, [("/foo.txt", 7)], false) ∧
    flightGet (AssetGroup.fetchAndCacheOnceExit [("/foo.txt", 7)] "/foo.txt"
      (.ok { ok := true, body := "b" })) "/foo.txt" = none ∧
    flightGet (AssetGroup.fetchAndCacheOnceExit [("/foo.txt", 7)] "/foo.txt"
      (.error ())) "/foo.txt" = none :=
  ⟨rfl,
   (fetchAndCacheOnceC8 [("/foo.txt", 7)] "/foo.txt" 7 9 rfl).1,
   (fetchAndCacheOnceC8 [("/foo.txt", 7)] "/foo.txt" 7 9 rfl).2
     (.ok { ok := true, body := "b" }),
   (fetchAndCacheOnceC8 [("/foo.txt", 7)] "/foo.txt" 7 9 rfl).2 (.error ())⟩

/-! ## IdleScheduler.execute (src/unnamed/part_004, lines 42-62)

A queued task, when run, either throws synchronously (caught by the
try/catch in the `map`, which substitutes `Promise.resolve()`), or returns a
promise that later resolves or rejects, possibly having called `schedule` for
further tasks while it ran.  `execute` maps the current queue to promises,
clears the queue, and awaits `Promise.all`: one rejected task promise rejects
the `await` and hence `execute` itself — the try/catch guards only the
synchronous call.  With no rejection the loop repeats on whatever the wave
scheduled. -/

/-- A task in the idle queue: it throws synchronously, or returns a promise
that rejects (when the flag is true) after scheduling the given tasks. -/
inductive TaskSpec where
  | throwsSync : TaskSpec
  | promise : Bool → List TaskSpec → TaskSpec
deriving Repr

/-- Tasks scheduled onto the queue while this task runs (a synchronously
throwing task schedules nothing). -/
def TaskSpec.sched : TaskSpec → List TaskSpec
  | .throwsSync => []
  | .promise _ s => s

/-- Whether the promise produced for this task by the `map` rejects: a
synchronous throw is converted to `Promise.resolve()`, so only a returned
rejecting promise does. -/
def TaskSpec.rejects : TaskSpec → Bool
  | .throwsSync => false
  | .promise r _ => r

/-- The queue contents after one wave: everything the wave's tasks scheduled,
in order. -/
def nextQueue : List TaskSpec → List TaskSpec
  | [] => []
  | t :: ts => t.sched ++ nextQueue ts

theorem sizeOf_append (a b : List TaskSpec) :
    sizeOf (a ++ b) + 1 = sizeOf a + sizeOf b := by
  induction a with
  | nil => simp; omega
  | cons hd tl ih => simp [ih]; omega

theorem sizeOf_sched (t : TaskSpec) : sizeOf t.sched ≤ sizeOf t := by
  cases t with
  | throwsSync => simp [TaskSpec.sched]
  | promise r s => simp [TaskSpec.sched]

theorem sizeOf_nextQueue (q : List TaskSpec) : sizeOf (nextQueue q) ≤ sizeOf q := by
  induction q with
  | nil => simp [nextQueue]
  | cons t ts ih =>
    have h1 := sizeOf_append t.sched (nextQueue ts)
    have h2 := sizeOf_sched t
    simp only [nextQueue]
    simp
    omega

theorem sizeOf_nextQueue_lt (t : TaskSpec) (ts : List TaskSpec) :
    sizeOf (nextQueue (t :: ts)) < sizeOf (t :: ts) := by
  have h1 := sizeOf_append t.sched (nextQueue ts)
  have h2 := sizeOf_sched t
  have h3 := sizeOf_nextQueue ts
  simp only [nextQueue]
  simp
  omega

/-- IdleScheduler.execute (part_004 lines 42-62): while the queue is nonempty,
run the wave; if any task's returned promise rejects, the awaited
`Promise.all` rejects and execute rejects; otherwise continue with the tasks
the wave scheduled. -/
def IdleScheduler.execute : List TaskSpec → Except Unit Unit
  | [] => .ok ()
  | t :: ts =>
    if (t :: ts).any TaskSpec.rejects then .error ()
    else IdleScheduler.execute (nextQueue (t :: ts))
termination_by q => sizeOf q
decreasing_by
  exact sizeOf_nextQueue_lt t ts

/-- Claim C9 fails on the code: a queue holding one task whose returned
promise rejects makes execute itself reject — the per-task try/catch guards
only the synchronous call — while a task that throws synchronously is indeed
swallowed (and a wave-scheduled follow-up task still runs in a later wave). -/
theorem idleExecuteRejectsC9 :
    IdleScheduler.execute [TaskSpec.promise true []] = .error () ∧
    IdleScheduler.execute [TaskSpec.throwsSync] = .ok () ∧
    IdleScheduler.execute [TaskSpec.promise false [TaskSpec.promise true []]] =
      .error () := by
  refine ⟨?_, ?_, ?_⟩ <;> simp [IdleScheduler.execute, nextQueue, TaskSpec.rejects, TaskSpec.sched]
